import Mathlib

/-
Verification development for the daily-limit quota plugin
(src/main.py and src/web_server.py).

The Python source is shallowly embedded: every `def` below translates one
Python function or inline block of the source, keeping the source's name in
lowerCamel form where Lean allows it.  Ambient state (the Redis connection and
the wall clock) is passed explicitly: the clock is a `Now` value carrying the
date key the source obtains from strftime("%Y-%m-%d") and the second of the
day; Redis is modelled by the `Store` structure together with an operation
log.  Machine details that the claims do not touch (UTF-8 byte positions,
sub-second clock resolution, JSON serialisation of record payloads) are
represented at the granularity the source observes them: times at second
resolution, record payloads by the pushed key only.
-/

namespace DailyLimit

/-! ## Association-list dictionaries

Python `dict` objects and the Redis key space are embedded as association
lists with first-occurrence lookup and replace-or-append update. -/

def lookupK {α : Type} : List (String × α) → String → Option α
  | [], _ => none
  | (k', v) :: t, k => if k' = k then some v else lookupK t k

def setKVal {α : Type} : List (String × α) → String → α → List (String × α)
  | [], k, v => [(k, v)]
  | (k', v') :: t, k, v => if k' = k then (k, v) :: t else (k', v') :: setKVal t k v

theorem lookupK_setKVal_self {α : Type} (l : List (String × α)) (k : String) (v : α) :
    lookupK (setKVal l k v) k = some v := by
  induction l with
  | nil => simp [setKVal, lookupK]
  | cons p t ih =>
    by_cases h : p.1 = k
    · simp [setKVal, h, lookupK]
    · simp [setKVal, h, lookupK, ih]

theorem lookupK_setKVal_ne {α : Type} (l : List (String × α)) (k k' : String) (v : α)
    (h : k' ≠ k) : lookupK (setKVal l k v) k' = lookupK l k' := by
  have hk : k ≠ k' := Ne.symm h
  induction l with
  | nil => simp [setKVal, lookupK, hk]
  | cons p t ih =>
    by_cases hp : p.1 = k
    · have hp' : p.1 ≠ k' := by rw [hp]; exact hk
      simp [setKVal, hp, lookupK, hk, hp']
    · simp [setKVal, hp, lookupK, ih]

/-! ## Wall clock

`Now` packages what the source reads from `datetime.datetime.now()`:
the "%Y-%m-%d" date key and the second of the day (0 ≤ sod < 86400).
The "%H:%M" comparisons of the source work at minute resolution, hence
`Now.minutes`; `(tomorrow - now).total_seconds()` truncated to int is
`86400 - sod` at the second resolution of this model. -/

structure Now where
  date : String
  sod : Nat
deriving Repr, DecidableEq

def Now.minutes (t : Now) : Nat := t.sod / 60

/- Embeds the `seconds_until_tomorrow` computation repeated at
main.py:346-349, 429-432, 456-459, 485-488 and 527-530. -/
def secondsUntilTomorrow (t : Now) : Nat := 86400 - t.sod

/-! ## Time-period configuration

`TimePeriod` embeds one entry of `time_period_limits`.  The source keeps
"HH:MM" strings that are strptime-validated at load/add time; they are
represented here as minutes since midnight (0..1439), which is exactly the
information the validated strings carry and the order `datetime.time`
comparison uses. -/

structure TimePeriod where
  start_time : Nat
  end_time : Nat
  limit : Nat
  enabled : Bool
deriving Repr, DecidableEq

/- Embeds `_is_in_time_period` (main.py:275-290): closed interval when
start ≤ end, wrap-around disjunction otherwise. -/
def isInTimePeriod (current start_t end_t : Nat) : Bool :=
  if start_t ≤ end_t then decide (start_t ≤ current) && decide (current ≤ end_t)
  else decide (current ≥ start_t) || decide (current ≤ end_t)

/- Embeds the loop of `_get_current_time_period_limit` (main.py:292-300):
first window whose interval contains the current time wins; the `enabled`
field is never consulted here, exactly as in the source. -/
def scanTimePeriodLimit (minutes : Nat) : List TimePeriod → Option Nat
  | [] => none
  | w :: ws =>
    if isInTimePeriod minutes w.start_time w.end_time then some w.limit
    else scanTimePeriodLimit minutes ws

/- Embeds the enumerate loop of `_get_time_period_usage_key`
(main.py:306-310), which finds the index of the first matching window. -/
def scanTimePeriodId (minutes : Nat) : List TimePeriod → Nat → Option Nat
  | [], _ => none
  | w :: ws, i =>
    if isInTimePeriod minutes w.start_time w.end_time then some i
    else scanTimePeriodId minutes ws (i + 1)

theorem scanTimePeriodLimit_none_iff (minutes : Nat) (l : List TimePeriod) :
    ∀ i, (scanTimePeriodLimit minutes l = none ↔ scanTimePeriodId minutes l i = none) := by
  induction l with
  | nil => intro i; simp [scanTimePeriodLimit, scanTimePeriodId]
  | cons w ws ih =>
    intro i
    by_cases h : isInTimePeriod minutes w.start_time w.end_time
    · simp [scanTimePeriodLimit, scanTimePeriodId, h]
    · simp [scanTimePeriodLimit, scanTimePeriodId, h, ih (i + 1)]

/-! ## Decimal rendering of integers

Embeds the Python f-string rendering of the integer window index
(`f"...{time_period_id}..."`).  Written with structural fuel so that the
kernel can evaluate it on concrete inputs. -/

def digitChar (d : Nat) : Char := Char.ofNat (48 + d)

def natDecimalAux : Nat → Nat → List Char
  | 0, _ => []
  | fuel + 1, n =>
    if n < 10 then [digitChar n]
    else natDecimalAux fuel (n / 10) ++ [digitChar (n % 10)]

def natDecimal (n : Nat) : String := ⟨natDecimalAux (n + 1) n⟩

def digitVal (c : Char) : Nat := c.toNat - 48

def decValList (l : List Char) : Nat := l.foldl (fun a c => 10 * a + digitVal c) 0

theorem decValList_append_from (l : List Char) :
    ∀ a, l.foldl (fun a c => 10 * a + digitVal c) a =
      a * 10 ^ l.length + decValList l := by
  induction l with
  | nil => intro a; simp [decValList]
  | cons c t ih =>
    intro a
    simp only [List.foldl_cons, List.length_cons, decValList]
    rw [ih (10 * a + digitVal c), ih (10 * 0 + digitVal c)]
    ring

theorem digitVal_digitChar (d : Nat) (h : d < 10) : digitVal (digitChar d) = d := by
  interval_cases d <;> decide

theorem natDecimalAux_val (fuel : Nat) :
    ∀ n, n < fuel → decValList (natDecimalAux fuel n) = n := by
  induction fuel with
  | zero => intro n h; omega
  | succ f ih =>
    intro n h
    by_cases h10 : n < 10
    · simp [natDecimalAux, h10, decValList, digitVal_digitChar n h10]
    · have hdiv : n / 10 < f := by
        have h1 : n / 10 < n := Nat.div_lt_self (by omega) (by omega)
        omega
      simp only [natDecimalAux, h10, if_false]
      unfold decValList
      rw [List.foldl_append]
      simp only [List.foldl_cons, List.foldl_nil]
      have hv := ih (n / 10) hdiv
      unfold decValList at hv
      rw [hv, digitVal_digitChar (n % 10) (Nat.mod_lt n (by omega))]
      omega

theorem natDecimal_inj (m n : Nat) (h : natDecimal m = natDecimal n) : m = n := by
  have hm := natDecimalAux_val (m + 1) m (by omega)
  have hn := natDecimalAux_val (n + 1) n (by omega)
  have hd : natDecimalAux (m + 1) m = natDecimalAux (n + 1) n := by
    have := congrArg String.data h
    simpa [natDecimal] using this
  rw [hd, hn] at hm
  omega

theorem natDecimalAux_colonFree (fuel : Nat) :
    ∀ n, ':' ∉ natDecimalAux fuel n := by
  induction fuel with
  | zero => intro n; simp [natDecimalAux]
  | succ f ih =>
    intro n
    by_cases h10 : n < 10
    · have : digitChar n ≠ ':' := by
        interval_cases n <;> decide
      simp [natDecimalAux, h10, this]
      intro he
      exact this he.symm
    · have h1 : digitChar (n % 10) ≠ ':' := by
        have := Nat.mod_lt n (show 0 < 10 by omega)
        interval_cases h : n % 10 <;> decide
      simp [natDecimalAux, h10, ih (n / 10)]
      intro he
      exact h1 he.symm

theorem natDecimal_colonFree (n : Nat) : ':' ∉ (natDecimal n).data := by
  simpa [natDecimal] using natDecimalAux_colonFree (n + 1) n

/-! ## Redis key construction -/

/- Embeds the rendering of a possibly-`None` Python value inside an
f-string: `None` renders as the four characters "None". -/
def pyOptStr : Option String → String
  | none => "None"
  | some s => s

/- Embeds `_get_today_key` (main.py:217-221), with the date passed in. -/
def getTodayKey (d : String) : String := "astrbot:daily_limit:" ++ d

/- Embeds `_get_user_key` (main.py:223-228). -/
def getUserKey (d u : String) (g : Option String) : String :=
  getTodayKey d ++ ":" ++ g.getD "private_chat" ++ ":" ++ u

/- Embeds `_get_group_key` (main.py:230-232). -/
def getGroupKey (d g : String) : String :=
  getTodayKey d ++ ":group:" ++ g

/- Embeds the key template of `_get_time_period_usage_key`
(main.py:315-319), with the window index already resolved. -/
def getTimePeriodUsageKeyAt (d : String) (tpid : Nat) (u g : Option String) : String :=
  "astrbot:time_period_limit:" ++ d ++ ":" ++ natDecimal tpid ++ ":"
    ++ g.getD "private_chat" ++ ":" ++ pyOptStr u

/- Embeds `_get_usage_record_key` (main.py:234-242). -/
def getUsageRecordKey (d u : String) (g : Option String) : String :=
  "astrbot:usage_record:" ++ d ++ ":" ++ g.getD "private_chat" ++ ":" ++ u

/- Embeds `_get_usage_stats_key` (main.py:244-249). -/
def getUsageStatsKey (d : String) : String := "astrbot:usage_stats:" ++ d

/-! ## Plugin state

`PluginState` carries the in-memory policy fields of `DailyLimitPlugin`
after `_load_limits_from_config`: the Python dicts become association
lists, the Redis handle becomes the flag `redis` (`False` ⟺ `self.redis`
is `None`), and `default_daily_limit` / `exempt_users` stand for the
corresponding `self.config["limits"]` entries. -/

structure PluginState where
  redis : Bool
  exempt_users : List String
  user_limits : List (String × Nat)
  group_limits : List (String × Nat)
  group_modes : List (String × String)
  time_period_limits : List TimePeriod
  default_daily_limit : Nat
  skip_patterns : List String
deriving Repr, DecidableEq

/- Embeds the time-window part of `_load_limits_from_config`
(main.py:89-108): only entries whose `enabled` field is truthy are kept in
the in-memory list (times are already validated in this representation). -/
def loadTimePeriodLimits (raw : List TimePeriod) : List TimePeriod :=
  raw.filter (fun w => w.enabled)

/- Applies `_load_limits_from_config`'s window filtering to a raw
configuration, yielding the state the constructor builds. -/
def loadPlugin (cfg : PluginState) : PluginState :=
  { cfg with time_period_limits := loadTimePeriodLimits cfg.time_period_limits }

/- Embeds the index-updating core of `limit_timeperiod_disable`
(main.py:1804-1826) after its 1-based argument has been converted to the
0-based index: sets `enabled` to `False` in place when the index is valid. -/
def timeperiodDisable (l : List TimePeriod) (i : Nat) : List TimePeriod :=
  if h : i < l.length then l.set i { l.get ⟨i, h⟩ with enabled := false } else l

/- Embeds `_get_current_time_period_limit` (main.py:292-300). -/
def getCurrentTimePeriodLimit (ps : PluginState) (now : Now) : Option Nat :=
  scanTimePeriodLimit now.minutes ps.time_period_limits

/- Embeds the index-scanning half of `_get_time_period_usage_key`
(main.py:302-313): `none` when no window matches the current time. -/
def getTimePeriodId (ps : PluginState) (now : Now) : Option Nat :=
  scanTimePeriodId now.minutes ps.time_period_limits 0

/- Embeds `_get_time_period_usage_key` (main.py:302-319) for the call sites
that pass `time_period_id=None`: the user argument may be Python `None`
(rendered "None" in the key), the group defaults to "private_chat". -/
def getTimePeriodUsageKey (ps : PluginState) (now : Now) (u g : Option String) :
    Option String :=
  (getTimePeriodId ps now).map (fun i => getTimePeriodUsageKeyAt now.date i u g)

/- Embeds `_should_skip_message` (main.py:251-261); Python `startswith`
becomes a character-list prefix test. -/
def shouldSkipMessage (ps : PluginState) (message : String) : Bool :=
  if message = "" || ps.skip_patterns.isEmpty then false
  else ps.skip_patterns.any (fun p => p.data.isPrefixOf message.data)

/- Embeds `_get_group_mode` (main.py:263-273): Python truthiness makes both
`None` and the empty string fall to "individual"; otherwise the per-group
setting applies, defaulting to "shared". -/
def getGroupMode (ps : PluginState) (g : Option String) : String :=
  match g with
  | none => "individual"
  | some gid =>
    if gid = "" then "individual"
    else (lookupK ps.group_modes gid).getD "shared"

/- Embeds the Python whitespace set of `str.strip()` (ASCII range). -/
def isPySpace (c : Char) : Bool :=
  c = ' ' || c = '\t' || c = '\n' || c = '\r' || c = '\x0b' || c = '\x0c'

/- Embeds `req.prompt.strip()` (main.py:549). -/
def pyStrip (s : String) : String :=
  ⟨((s.data.dropWhile isPySpace).reverse.dropWhile isPySpace).reverse⟩

/-! ## Effective limit

`_get_user_limit` returns either `float('inf')` (exempt) or an integer;
the sentinel is embedded as a tagged variant. -/

inductive EffLimit where
  | inf : EffLimit
  | fin : Nat → EffLimit
deriving Repr, DecidableEq

/- Embeds the Python comparison `usage >= limit` (main.py:583): a finite
usage is never ≥ `float('inf')`. -/
def effGe (usage : Nat) : EffLimit → Bool
  | .inf => false
  | .fin l => decide (usage ≥ l)

/- Embeds `remaining = limit - usage` (main.py:606): infinite for an
infinite limit (and then never in `[1, 3, 5]`). -/
def effRemaining (usage : Nat) : EffLimit → Option Nat
  | .inf => none
  | .fin l => some (l - usage)

/- Embeds `_get_user_limit` (main.py:355-375): exemption, then the first
matching time window, then per-user, per-group (with Python truthiness on
the group id), then the global default. -/
def getUserLimit (ps : PluginState) (u : String) (g : Option String) (now : Now) :
    EffLimit :=
  if ps.exempt_users.contains u then .inf
  else
    match getCurrentTimePeriodLimit ps now with
    | some l => .fin l
    | none =>
      match lookupK ps.user_limits u with
      | some l => .fin l
      | none =>
        match g with
        | some gid =>
          if gid ≠ "" then
            match lookupK ps.group_limits gid with
            | some l => .fin l
            | none => .fin ps.default_daily_limit
          else .fin ps.default_daily_limit
        | none => .fin ps.default_daily_limit

/-! ## The counter store

The Redis instance is embedded as four typed key spaces (string counters,
TTLs, lists, hashes) plus a log of the operations issued, so that theorems
can speak about which commands the enforcement path performed. -/

inductive StoreOp where
  | get : String → StoreOp
  | incr : String → StoreOp
  | decr : String → StoreOp
  | expire : String → Nat → StoreOp
  | rpush : String → StoreOp
  | hincrby : String → String → StoreOp
  | existsQ : String → StoreOp
deriving Repr, DecidableEq

structure Store where
  counters : List (String × Nat) := []
  ttls : List (String × Nat) := []
  lists : List (String × Nat) := []
  hashes : List (String × List (String × Nat)) := []
  log : List StoreOp := []
deriving Repr, DecidableEq

def counterVal (st : Store) (k : String) : Nat := (lookupK st.counters k).getD 0

/- Embeds `redis.get` on an integer key, `int(usage) if usage else 0`. -/
def Store.getC (st : Store) (k : String) : Option Nat × Store :=
  (lookupK st.counters k, { st with log := st.log ++ [.get k] })

/- Embeds `redis.incr` (atomic increment, creating the key at 0). -/
def Store.incrC (st : Store) (k : String) : Nat × Store :=
  let v := (lookupK st.counters k).getD 0 + 1
  (v, { st with counters := setKVal st.counters k v, log := st.log ++ [.incr k] })

/- Embeds `redis.expire`. -/
def Store.expireK (st : Store) (k : String) (s : Nat) : Store :=
  { st with ttls := setKVal st.ttls k s, log := st.log ++ [.expire k s] }

/- Embeds `redis.rpush`; the JSON payload is tracked by list length only. -/
def Store.rpushK (st : Store) (k : String) : Store :=
  { st with lists := setKVal st.lists k ((lookupK st.lists k).getD 0 + 1),
            log := st.log ++ [.rpush k] }

/- Embeds `redis.hincrby` with amount 1. -/
def Store.hincrbyK (st : Store) (k f : String) : Store :=
  let h := (lookupK st.hashes k).getD []
  { st with hashes := setKVal st.hashes k (setKVal h f ((lookupK h f).getD 0 + 1)),
            log := st.log ++ [.hincrby k f] }

/- Embeds `redis.exists` over the modelled key spaces. -/
def Store.existsK (st : Store) (k : String) : Bool × Store :=
  ((lookupK st.counters k).isSome || (lookupK st.lists k).isSome
      || (lookupK st.hashes k).isSome,
    { st with log := st.log ++ [.existsQ k] })

/-! ## Usage accounting -/

/- Embeds `_get_time_period_usage` (main.py:321-331). -/
def getTimePeriodUsage (ps : PluginState) (st : Store) (now : Now) (u g : Option String) :
    Nat × Store :=
  if !ps.redis then (0, st)
  else
    match getTimePeriodUsageKey ps now u g with
    | none => (0, st)
    | some k =>
      let r := st.getC k
      (r.1.getD 0, r.2)

/- Embeds `_get_user_usage` (main.py:377-392). -/
def getUserUsage (ps : PluginState) (st : Store) (now : Now) (u : String)
    (g : Option String) : Nat × Store :=
  if !ps.redis then (0, st)
  else
    match getCurrentTimePeriodLimit ps now with
    | some _ => getTimePeriodUsage ps st now (some u) g
    | none =>
      let r := st.getC (getUserKey now.date u g)
      (r.1.getD 0, r.2)

/- Embeds `_get_group_usage` (main.py:394-409). -/
def getGroupUsage (ps : PluginState) (st : Store) (now : Now) (g : String) :
    Nat × Store :=
  if !ps.redis then (0, st)
  else
    match getCurrentTimePeriodLimit ps now with
    | some _ => getTimePeriodUsage ps st now none (some g)
    | none =>
      let r := st.getC (getGroupKey now.date g)
      (r.1.getD 0, r.2)

/- Embeds `_increment_time_period_usage` (main.py:333-353): the pipeline
issues INCR then EXPIRE-to-next-midnight on every call. -/
def incrementTimePeriodUsage (ps : PluginState) (st : Store) (now : Now)
    (u g : Option String) : Bool × Store :=
  if !ps.redis then (false, st)
  else
    match getTimePeriodUsageKey ps now u g with
    | none => (false, st)
    | some k =>
      let r := st.incrC k
      (true, r.2.expireK k (secondsUntilTomorrow now))

/- Embeds `_increment_user_usage` (main.py:411-436), including the
fall-through to the daily key when the window increment reports failure. -/
def incrementUserUsage (ps : PluginState) (st : Store) (now : Now) (u : String)
    (g : Option String) : Bool × Store :=
  if !ps.redis then (false, st)
  else
    match getCurrentTimePeriodLimit ps now with
    | some _ =>
      let r := incrementTimePeriodUsage ps st now (some u) g
      if r.1 then (true, r.2)
      else
        let k := getUserKey now.date u g
        let r2 := r.2.incrC k
        (true, r2.2.expireK k (secondsUntilTomorrow now))
    | none =>
      let k := getUserKey now.date u g
      let r2 := st.incrC k
      (true, r2.2.expireK k (secondsUntilTomorrow now))

/- Embeds `_increment_group_usage` (main.py:438-463). -/
def incrementGroupUsage (ps : PluginState) (st : Store) (now : Now) (g : String) :
    Bool × Store :=
  if !ps.redis then (false, st)
  else
    match getCurrentTimePeriodLimit ps now with
    | some _ =>
      let r := incrementTimePeriodUsage ps st now none (some g)
      if r.1 then (true, r.2)
      else
        let k := getGroupKey now.date g
        let r2 := r.2.incrC k
        (true, r2.2.expireK k (secondsUntilTomorrow now))
    | none =>
      let k := getGroupKey now.date g
      let r2 := st.incrC k
      (true, r2.2.expireK k (secondsUntilTomorrow now))

/- Embeds the expiry loop at the end of `_update_usage_stats`
(main.py:532-535). -/
def expireExisting (now : Now) : List String → Store → Store
  | [], st => st
  | k :: ks, st =>
    let r := st.existsK k
    if r.1 then expireExisting now ks (r.2.expireK k (secondsUntilTomorrow now))
    else expireExisting now ks r.2

/- Embeds `_update_usage_stats` (main.py:496-537); the group branch uses
Python truthiness on the group id. -/
def updateUsageStats (ps : PluginState) (st : Store) (now : Now) (u : String)
    (g : Option String) : Store :=
  if !ps.redis then st
  else
    let statsKey := getUsageStatsKey now.date
    let userStatsKey := statsKey ++ ":user:" ++ u
    let st1 := st.hincrbyK userStatsKey "total_usage"
    let globalStatsKey := statsKey ++ ":global"
    let st2 := st1.hincrbyK globalStatsKey "total_requests"
    match g with
    | some gid =>
      if gid ≠ "" then
        let groupStatsKey := statsKey ++ ":group:" ++ gid
        let st3 := st2.hincrbyK groupStatsKey "total_usage"
        let groupUserStatsKey := statsKey ++ ":group:" ++ gid ++ ":user:" ++ u
        let st4 := st3.hincrbyK groupUserStatsKey "usage_count"
        expireExisting now [userStatsKey, globalStatsKey, groupStatsKey,
          groupUserStatsKey] st4
      else expireExisting now [userStatsKey, globalStatsKey] st2
    | none => expireExisting now [userStatsKey, globalStatsKey] st2

/- Embeds `_record_usage` (main.py:465-494). -/
def recordUsage (ps : PluginState) (st : Store) (now : Now) (u : String)
    (g : Option String) : Store :=
  if !ps.redis then st
  else
    let rk := getUsageRecordKey now.date u g
    let st1 := st.rpushK rk
    let st2 := st1.expireK rk (secondsUntilTomorrow now)
    updateUsageStats ps st2 now u g

/-! ## The enforcement handler -/

/- The observable outcome of `on_llm_request`: `storeDown`, `skipped` and
`denied` all stop the event and return `False`; `exempt` and `allowed`
return `True`; `allowed` carries the remaining-count value announced by the
low-quota reminder, when one was sent. -/
inductive Decision where
  | storeDown : Decision
  | skipped : Decision
  | exempt : Decision
  | denied : Decision
  | allowed : Option Nat → Decision
deriving Repr, DecidableEq

def Decision.isAllowed : Decision → Bool
  | .allowed _ => true
  | _ => false

/- The usage read of `on_llm_request` (main.py:566-580), selected by the
group mode. -/
def readUsage (ps : PluginState) (st : Store) (u : String) (g : Option String)
    (now : Now) : Nat × Store :=
  match g with
  | some gid =>
    if getGroupMode ps (some gid) = "shared" then getGroupUsage ps st now gid
    else getUserUsage ps st now u (some gid)
  | none => getUserUsage ps st now u none

/- The usage increment of `on_llm_request` (main.py:623-631). -/
def incrementPath (ps : PluginState) (st : Store) (u : String) (g : Option String)
    (now : Now) : Store :=
  match g with
  | some gid =>
    if getGroupMode ps (some gid) = "shared" then (incrementGroupUsage ps st now gid).2
    else (incrementUserUsage ps st now u (some gid)).2
  | none => (incrementUserUsage ps st now u none).2

/- Embeds `on_llm_request` (main.py:539-636): Redis check, skip check,
exemption, limit resolution, usage read, deny-or-remind, increment and
record.  The group id is `some gid` exactly for group messages. -/
def on_llm_request (ps : PluginState) (st : Store) (prompt message u : String)
    (g : Option String) (now : Now) : Decision × Store :=
  if !ps.redis then (.storeDown, st)
  else if pyStrip prompt = "" || shouldSkipMessage ps message then (.skipped, st)
  else if ps.exempt_users.contains u then (.exempt, st)
  else
    let limit := getUserLimit ps u g now
    let r := readUsage ps st u g now
    if effGe r.1 limit then (.denied, r.2)
    else
      let rem := effRemaining r.1 limit
      let reminder := if rem = some 1 ∨ rem = some 3 ∨ rem = some 5 then rem else none
      let st2 := incrementPath ps r.2 u g now
      let st3 := recordUsage ps st2 now u g
      (.allowed reminder, st3)

/- Iterated requests with identical event data: the n-th component of the
returned list is the decision of the n-th request. -/
def runRequests (ps : PluginState) (prompt message u : String) (g : Option String)
    (now : Now) : Nat → Store → List Decision × Store
  | 0, st => ([], st)
  | n + 1, st =>
    let r := on_llm_request ps st prompt message u g now
    let rest := runRequests ps prompt message u g now n r.2
    (r.1 :: rest.1, rest.2)

/-! ## The governing counter key

For fixed (state, identity, group, time) the read path and the increment
path of `on_llm_request` address one counter key; `govKey` names it by the
same case analysis the source performs. -/

def govKey (ps : PluginState) (u : String) (g : Option String) (now : Now) : String :=
  match getTimePeriodId ps now with
  | some i =>
    match g with
    | some gid =>
      if getGroupMode ps (some gid) = "shared" then
        getTimePeriodUsageKeyAt now.date i none (some gid)
      else getTimePeriodUsageKeyAt now.date i (some u) (some gid)
    | none => getTimePeriodUsageKeyAt now.date i (some u) none
  | none =>
    match g with
    | some gid =>
      if getGroupMode ps (some gid) = "shared" then getGroupKey now.date gid
      else getUserKey now.date u (some gid)
    | none => getUserKey now.date u none

theorem getCurrentTimePeriodLimit_isSome_of_id (ps : PluginState) (now : Now) (i : Nat)
    (h : getTimePeriodId ps now = some i) :
    ∃ l, getCurrentTimePeriodLimit ps now = some l := by
  rcases hl : getCurrentTimePeriodLimit ps now with _ | l
  · have := (scanTimePeriodLimit_none_iff now.minutes ps.time_period_limits 0).mp hl
    rw [getTimePeriodId] at h
    rw [this] at h
    cases h
  · exact ⟨l, rfl⟩

theorem getCurrentTimePeriodLimit_none_of_id (ps : PluginState) (now : Now)
    (h : getTimePeriodId ps now = none) :
    getCurrentTimePeriodLimit ps now = none :=
  (scanTimePeriodLimit_none_iff now.minutes ps.time_period_limits 0).mpr h

/- The usage read returns the current value of the governing counter and
only appends a GET to the log. -/
theorem readUsage_spec (ps : PluginState) (st : Store) (u : String) (g : Option String)
    (now : Now) (hr : ps.redis = true) :
    readUsage ps st u g now =
      (counterVal st (govKey ps u g now),
        { st with log := st.log ++ [.get (govKey ps u g now)] }) := by
  rcases hw : getTimePeriodId ps now with _ | i
  · have hl := getCurrentTimePeriodLimit_none_of_id ps now hw
    rcases g with _ | gid
    · simp [readUsage, getUserUsage, hr, hl, govKey, hw, Store.getC, counterVal]
    · by_cases hm : getGroupMode ps (some gid) = "shared"
      · simp [readUsage, hm, getGroupUsage, hr, hl, govKey, hw, Store.getC, counterVal]
      · simp [readUsage, hm, getUserUsage, hr, hl, govKey, hw, Store.getC, counterVal]
  · obtain ⟨l, hl⟩ := getCurrentTimePeriodLimit_isSome_of_id ps now i hw
    rcases g with _ | gid
    · simp [readUsage, getUserUsage, hr, hl, getTimePeriodUsage, getTimePeriodUsageKey,
        hw, govKey, Store.getC, counterVal]
    · by_cases hm : getGroupMode ps (some gid) = "shared"
      · simp [readUsage, hm, getGroupUsage, hr, hl, getTimePeriodUsage,
          getTimePeriodUsageKey, hw, govKey, Store.getC, counterVal]
      · simp [readUsage, hm, getUserUsage, hr, hl, getTimePeriodUsage,
          getTimePeriodUsageKey, hw, govKey, Store.getC, counterVal]

/- The increment path bumps exactly the governing counter, rewrites its
TTL to the seconds remaining until next midnight, and appends INCR then
EXPIRE to the log. -/
theorem incrementPath_spec (ps : PluginState) (st : Store) (u : String)
    (g : Option String) (now : Now) (hr : ps.redis = true) :
    incrementPath ps st u g now =
      { st with
        counters := setKVal st.counters (govKey ps u g now)
          (counterVal st (govKey ps u g now) + 1),
        ttls := setKVal st.ttls (govKey ps u g now) (secondsUntilTomorrow now),
        log := st.log ++ [.incr (govKey ps u g now),
          .expire (govKey ps u g now) (secondsUntilTomorrow now)] } := by
  rcases hw : getTimePeriodId ps now with _ | i
  · have hl := getCurrentTimePeriodLimit_none_of_id ps now hw
    rcases g with _ | gid
    · simp [incrementPath, incrementUserUsage, hr, hl, govKey, hw, Store.incrC,
        Store.expireK, counterVal]
    · by_cases hm : getGroupMode ps (some gid) = "shared"
      · simp [incrementPath, hm, incrementGroupUsage, hr, hl, govKey, hw, Store.incrC,
          Store.expireK, counterVal]
      · simp [incrementPath, hm, incrementUserUsage, hr, hl, govKey, hw, Store.incrC,
          Store.expireK, counterVal]
  · obtain ⟨l, hl⟩ := getCurrentTimePeriodLimit_isSome_of_id ps now i hw
    rcases g with _ | gid
    · simp [incrementPath, incrementUserUsage, hr, hl, incrementTimePeriodUsage,
        getTimePeriodUsageKey, hw, govKey, Store.incrC, Store.expireK, counterVal]
    · by_cases hm : getGroupMode ps (some gid) = "shared"
      · simp [incrementPath, hm, incrementGroupUsage, hr, hl, incrementTimePeriodUsage,
          getTimePeriodUsageKey, hw, govKey, Store.incrC, Store.expireK, counterVal]
      · simp [incrementPath, hm, incrementUserUsage, hr, hl, incrementTimePeriodUsage,
          getTimePeriodUsageKey, hw, govKey, Store.incrC, Store.expireK, counterVal]

/-! ## Frame lemmas for the usage record -/

theorem expireExisting_counters (now : Now) :
    ∀ (ks : List String) (st : Store), (expireExisting now ks st).counters = st.counters := by
  intro ks
  induction ks with
  | nil => intro st; simp [expireExisting]
  | cons k t ih =>
    intro st
    simp only [expireExisting]
    split <;> rw [ih] <;> simp [Store.expireK, Store.existsK]

theorem updateUsageStats_counters (ps : PluginState) (st : Store) (now : Now)
    (u : String) (g : Option String) :
    (updateUsageStats ps st now u g).counters = st.counters := by
  by_cases hr : ps.redis
  · rcases g with _ | gid
    · simp [updateUsageStats, hr, expireExisting_counters, Store.hincrbyK]
    · by_cases he : gid = ""
      · simp [updateUsageStats, hr, he, expireExisting_counters, Store.hincrbyK]
      · simp [updateUsageStats, hr, he, expireExisting_counters, Store.hincrbyK]
  · simp [updateUsageStats, hr]

theorem recordUsage_counters (ps : PluginState) (st : Store) (now : Now)
    (u : String) (g : Option String) :
    (recordUsage ps st now u g).counters = st.counters := by
  by_cases hr : ps.redis
  · simp [recordUsage, hr, updateUsageStats_counters, Store.expireK, Store.rpushK]
  · simp [recordUsage, hr]

/-! ## Key-space separation

Counter keys, usage-record keys and statistics keys live under four
distinct literal prefixes; the record-keeping of an allowed request can
therefore never touch the governing counter's key. -/

theorem string_data_inj {a b : String} (h : a.data = b.data) : a = b := by
  cases a
  cases b
  exact congrArg String.mk h

def hasPrefixStr (p k : String) : Prop := ∃ r, k.data = p.data ++ r

theorem colon_data : (":" : String).data = [':'] := rfl

theorem hasPrefixStr_ne (p₁ p₂ k₁ k₂ : String) (h₁ : hasPrefixStr p₁ k₁)
    (h₂ : hasPrefixStr p₂ k₂) (hno₁ : ¬ p₁.data <+: p₂.data)
    (hno₂ : ¬ p₂.data <+: p₁.data) : k₁ ≠ k₂ := by
  rcases h₁ with ⟨r₁, e₁⟩
  rcases h₂ with ⟨r₂, e₂⟩
  intro h
  rw [h, e₂] at e₁
  rcases List.append_eq_append_iff.mp e₁.symm with ⟨a, ha, _⟩ | ⟨c, hc, _⟩
  · exact hno₁ ⟨a, ha.symm⟩
  · exact hno₂ ⟨c, hc.symm⟩

theorem hasPrefixStr_append (p s t : String) (h : hasPrefixStr p s) :
    hasPrefixStr p (s ++ t) := by
  rcases h with ⟨r, e⟩
  exact ⟨r ++ t.data, by simp [String.data_append, e]⟩

theorem getUserKey_shape (d u : String) (g : Option String) :
    hasPrefixStr "astrbot:daily_limit:" (getUserKey d u g) :=
  ⟨d.data ++ ':' :: (g.getD "private_chat").data ++ ':' :: u.data, by
    simp [getUserKey, getTodayKey, String.data_append, colon_data]⟩

theorem getGroupKey_shape (d g : String) :
    hasPrefixStr "astrbot:daily_limit:" (getGroupKey d g) :=
  ⟨d.data ++ ":group:".data ++ g.data, by
    simp [getGroupKey, getTodayKey, String.data_append]⟩

theorem getTimePeriodUsageKeyAt_shape (d : String) (tpid : Nat) (u g : Option String) :
    hasPrefixStr "astrbot:time_period_limit:" (getTimePeriodUsageKeyAt d tpid u g) :=
  ⟨d.data ++ ':' :: (natDecimal tpid).data ++ ':' :: (g.getD "private_chat").data
      ++ ':' :: (pyOptStr u).data, by
    simp [getTimePeriodUsageKeyAt, String.data_append, colon_data]⟩

theorem getUsageRecordKey_shape (d u : String) (g : Option String) :
    hasPrefixStr "astrbot:usage_record:" (getUsageRecordKey d u g) :=
  ⟨d.data ++ ':' :: (g.getD "private_chat").data ++ ':' :: u.data, by
    simp [getUsageRecordKey, String.data_append, colon_data]⟩

theorem getUsageStatsKey_shape (d : String) :
    hasPrefixStr "astrbot:usage_stats:" (getUsageStatsKey d) :=
  ⟨d.data, by simp [getUsageStatsKey, String.data_append]⟩

/- Every governing counter key is a daily-limit or time-period key. -/
theorem govKey_shape (ps : PluginState) (u : String) (g : Option String) (now : Now) :
    hasPrefixStr "astrbot:daily_limit:" (govKey ps u g now) ∨
    hasPrefixStr "astrbot:time_period_limit:" (govKey ps u g now) := by
  unfold govKey
  rcases getTimePeriodId ps now with _ | i
  · rcases g with _ | gid
    · exact Or.inl (getUserKey_shape now.date u none)
    · by_cases hm : getGroupMode ps (some gid) = "shared"
      · simp only [hm, if_true]
        exact Or.inl (getGroupKey_shape now.date gid)
      · simp only [hm, if_false]
        exact Or.inl (getUserKey_shape now.date u (some gid))
  · rcases g with _ | gid
    · exact Or.inr (getTimePeriodUsageKeyAt_shape now.date i (some u) none)
    · by_cases hm : getGroupMode ps (some gid) = "shared"
      · simp only [hm, if_true]
        exact Or.inr (getTimePeriodUsageKeyAt_shape now.date i none (some gid))
      · simp only [hm, if_false]
        exact Or.inr (getTimePeriodUsageKeyAt_shape now.date i (some u) (some gid))

/- A governing counter key never coincides with a record or stats key. -/
theorem gov_ne_bookkeeping (gk bk : String)
    (hg : hasPrefixStr "astrbot:daily_limit:" gk ∨
      hasPrefixStr "astrbot:time_period_limit:" gk)
    (hb : hasPrefixStr "astrbot:usage_record:" bk ∨
      hasPrefixStr "astrbot:usage_stats:" bk) : gk ≠ bk := by
  rcases hg with hg | hg <;> rcases hb with hb | hb
  · exact hasPrefixStr_ne _ _ _ _ hg hb (by decide) (by decide)
  · exact hasPrefixStr_ne _ _ _ _ hg hb (by decide) (by decide)
  · exact hasPrefixStr_ne _ _ _ _ hg hb (by decide) (by decide)
  · exact hasPrefixStr_ne _ _ _ _ hg hb (by decide) (by decide)

theorem expireExisting_ttl_pres (now : Now) (gk : String) :
    ∀ (ks : List String) (st : Store), (∀ k ∈ ks, gk ≠ k) →
      lookupK (expireExisting now ks st).ttls gk = lookupK st.ttls gk := by
  intro ks
  induction ks with
  | nil => intro st _; simp [expireExisting]
  | cons k t ih =>
    intro st hne
    have hk : gk ≠ k := hne k (by simp)
    have ht : ∀ k' ∈ t, gk ≠ k' := fun k' hk' => hne k' (by simp [hk'])
    simp only [expireExisting]
    split
    · rw [ih _ ht]
      simp [Store.expireK, Store.existsK, lookupK_setKVal_ne _ _ _ _ hk]
    · rw [ih _ ht]
      simp [Store.existsK]

theorem updateUsageStats_ttl_pres (ps : PluginState) (st : Store) (now : Now)
    (u : String) (g : Option String) (gk : String)
    (hg : hasPrefixStr "astrbot:daily_limit:" gk ∨
      hasPrefixStr "astrbot:time_period_limit:" gk) :
    lookupK (updateUsageStats ps st now u g).ttls gk = lookupK st.ttls gk := by
  have hstats : ∀ s : String, gk ≠ getUsageStatsKey now.date ++ s := by
    intro s
    exact gov_ne_bookkeeping gk _ hg
      (Or.inr (hasPrefixStr_append _ _ _ (getUsageStatsKey_shape now.date)))
  by_cases hr : ps.redis
  · rcases g with _ | gid
    · rw [updateUsageStats]
      simp only [hr, Bool.not_true]
      rw [if_neg (by decide)]
      rw [expireExisting_ttl_pres]
      · simp [Store.hincrbyK]
      · intro k hk
        simp only [List.mem_cons, List.not_mem_nil, or_false] at hk
        rcases hk with hk | hk
        · rw [hk, String.append_assoc]; exact hstats _
        · rw [hk]; exact hstats _
    · by_cases he : gid = ""
      · rw [updateUsageStats]
        simp only [hr, Bool.not_true, he]
        rw [if_neg (by decide), if_neg (by decide)]
        rw [expireExisting_ttl_pres]
        · simp [Store.hincrbyK]
        · intro k hk
          simp only [List.mem_cons, List.not_mem_nil, or_false] at hk
          rcases hk with hk | hk
          · rw [hk, String.append_assoc]; exact hstats _
          · rw [hk]; exact hstats _
      · rw [updateUsageStats]
        simp only [hr, Bool.not_true]
        rw [if_neg (by decide), if_pos he]
        rw [expireExisting_ttl_pres]
        · simp [Store.hincrbyK]
        · intro k hk
          simp only [List.mem_cons, List.not_mem_nil, or_false] at hk
          rcases hk with hk | hk | hk | hk
          · rw [hk, String.append_assoc]; exact hstats _
          · rw [hk]; exact hstats _
          · rw [hk, String.append_assoc]; exact hstats _
          · rw [hk, String.append_assoc, String.append_assoc, String.append_assoc]
            exact hstats _
  · simp [updateUsageStats, hr]

theorem recordUsage_ttl_pres (ps : PluginState) (st : Store) (now : Now)
    (u : String) (g : Option String) (gk : String)
    (hg : hasPrefixStr "astrbot:daily_limit:" gk ∨
      hasPrefixStr "astrbot:time_period_limit:" gk) :
    lookupK (recordUsage ps st now u g).ttls gk = lookupK st.ttls gk := by
  have hrk : gk ≠ getUsageRecordKey now.date u g :=
    gov_ne_bookkeeping gk _ hg (Or.inl (getUsageRecordKey_shape now.date u g))
  by_cases hr : ps.redis
  · rw [recordUsage]
    simp only [hr, Bool.not_true]
    rw [if_neg (by decide)]
    rw [updateUsageStats_ttl_pres _ _ _ _ _ _ hg]
    simp [Store.expireK, Store.rpushK, lookupK_setKVal_ne _ _ _ _ hrk]
  · simp [recordUsage, hr]

end DailyLimit

namespace DailyLimit

/-! ## Single-request characterisation -/

/- The source's reminder rule at main.py:605-607, as a function of the
pre-consumption remaining count `limit - usage`. -/
def reminderOf (r : Nat) : Option Nat :=
  if r = 1 ∨ r = 3 ∨ r = 5 then some r else none

/- A valid, non-exempt request whose governing counter has reached the
limit is denied, and the store is only read. -/
theorem step_denied (ps : PluginState) (st : Store) (prompt message u : String)
    (g : Option String) (now : Now) (L : Nat)
    (hr : ps.redis = true) (hp : ¬ pyStrip prompt = "")
    (hs : shouldSkipMessage ps message = false)
    (he : ps.exempt_users.contains u = false)
    (hL : getUserLimit ps u g now = .fin L)
    (hge : L ≤ counterVal st (govKey ps u g now)) :
    on_llm_request ps st prompt message u g now =
      (.denied, { st with log := st.log ++ [.get (govKey ps u g now)] }) := by
  rw [on_llm_request]
  simp only [hr, Bool.not_true, hp, hs, he, hL, readUsage_spec ps st u g now hr]
  rw [if_neg (by decide)]
  rw [if_neg (by simp [hp, hs])]
  rw [if_neg (by simp [he])]
  simp [effGe, hge]

/- A valid, non-exempt request below the limit is allowed; the reminder
carries the pre-consumption remaining count when it is 1, 3 or 5; exactly
the governing counter is incremented and its TTL is rewritten to the
seconds until next midnight. -/
theorem reminder_ite_eq (r : Nat) :
    (if some r = some 1 ∨ some r = some 3 ∨ some r = some 5 then some r
      else (none : Option Nat)) = reminderOf r := by
  simp only [Option.some.injEq, reminderOf]

theorem step_allowed (ps : PluginState) (st : Store) (prompt message u : String)
    (g : Option String) (now : Now) (L : Nat)
    (hr : ps.redis = true) (hp : ¬ pyStrip prompt = "")
    (hs : shouldSkipMessage ps message = false)
    (he : ps.exempt_users.contains u = false)
    (hL : getUserLimit ps u g now = .fin L)
    (hlt : counterVal st (govKey ps u g now) < L) :
    (on_llm_request ps st prompt message u g now).1 =
      .allowed (reminderOf (L - counterVal st (govKey ps u g now))) ∧
    (on_llm_request ps st prompt message u g now).2.counters =
      setKVal st.counters (govKey ps u g now)
        (counterVal st (govKey ps u g now) + 1) ∧
    lookupK (on_llm_request ps st prompt message u g now).2.ttls
        (govKey ps u g now) = some (secondsUntilTomorrow now) := by
  have hnge : effGe (counterVal st (govKey ps u g now)) (EffLimit.fin L) = false := by
    simp [effGe]
    omega
  rw [on_llm_request]
  simp only [hr, Bool.not_true, hp, hs, he, hL, readUsage_spec ps st u g now hr]
  rw [if_neg (by decide)]
  rw [if_neg (by simp)]
  rw [if_neg (by simp)]
  rw [hnge]
  rw [if_neg (by decide)]
  simp only [effRemaining]
  refine ⟨?_, ?_, ?_⟩
  · rw [reminder_ite_eq]
  · rw [recordUsage_counters, incrementPath_spec ps _ u g now hr]
    simp [counterVal]
  · rw [recordUsage_ttl_pres _ _ _ _ _ _ (govKey_shape ps u g now)]
    rw [incrementPath_spec ps _ u g now hr]
    simp [counterVal, lookupK_setKVal_self]

end DailyLimit

namespace DailyLimit

/-! ## Iterated requests -/

theorem runRequests_length (ps : PluginState) (prompt message u : String)
    (g : Option String) (now : Now) :
    ∀ (k : Nat) (st : Store),
      ((runRequests ps prompt message u g now k st).1).length = k := by
  intro k
  induction k with
  | zero => intro st; simp [runRequests]
  | succ n ih => intro st; simp [runRequests, ih]

theorem runRequests_add (ps : PluginState) (prompt message u : String)
    (g : Option String) (now : Now) :
    ∀ (m n : Nat) (st : Store), runRequests ps prompt message u g now (m + n) st =
      ((runRequests ps prompt message u g now m st).1 ++
        (runRequests ps prompt message u g now n
          (runRequests ps prompt message u g now m st).2).1,
        (runRequests ps prompt message u g now n
          (runRequests ps prompt message u g now m st).2).2) := by
  intro m
  induction m with
  | zero => intro n st; simp [runRequests]
  | succ m ih =>
    intro n st
    have hmn : m + 1 + n = (m + n) + 1 := by omega
    rw [hmn]
    simp only [runRequests]
    rw [ih]
    simp [List.cons_append]

/- Below the limit, every request of a run is allowed and each consumes
exactly one unit of the governing counter. -/
theorem runRequests_allowed_inv (ps : PluginState) (prompt message u : String)
    (g : Option String) (now : Now) (L : Nat)
    (hr : ps.redis = true) (hp : ¬ pyStrip prompt = "")
    (hs : shouldSkipMessage ps message = false)
    (he : ps.exempt_users.contains u = false)
    (hL : getUserLimit ps u g now = .fin L) :
    ∀ (k : Nat) (st : Store), counterVal st (govKey ps u g now) + k ≤ L →
      ((runRequests ps prompt message u g now k st).1.all Decision.isAllowed = true) ∧
      counterVal (runRequests ps prompt message u g now k st).2 (govKey ps u g now) =
        counterVal st (govKey ps u g now) + k := by
  intro k
  induction k with
  | zero => intro st _; simp [runRequests]
  | succ n ih =>
    intro st hk
    have hlt : counterVal st (govKey ps u g now) < L := by omega
    obtain ⟨h1, h2, _⟩ :=
      step_allowed ps st prompt message u g now L hr hp hs he hL hlt
    have hc2 : counterVal (on_llm_request ps st prompt message u g now).2
        (govKey ps u g now) = counterVal st (govKey ps u g now) + 1 := by
      rw [counterVal, h2, lookupK_setKVal_self]
      rfl
    have hih := ih (on_llm_request ps st prompt message u g now).2
      (by rw [hc2]; omega)
    constructor
    · simp only [runRequests, List.all_cons]
      rw [h1]
      simp only [Decision.isAllowed, Bool.true_and]
      exact hih.1
    · simp only [runRequests]
      rw [hih.2, hc2]
      omega

end DailyLimit

namespace DailyLimit

theorem take_len_append {α : Type} (l₁ l₂ : List α) (n : Nat) (h : l₁.length = n) :
    (l₁ ++ l₂).take n = l₁ := by
  subst h
  exact List.take_left l₁ l₂

theorem drop_len_append {α : Type} (l₁ l₂ : List α) (n : Nat) (h : l₁.length = n) :
    (l₁ ++ l₂).drop n = l₂ := by
  subst h
  exact List.drop_left l₁ l₂

/-- C1: for every scope whose effective limit is the non-negative integer L,
starting from a fresh period (governing counter 0) and issuing identical
requests within the period, the first L requests are all Allowed, the
(L+1)-th request is Denied, and the stored governing counter equals L (not
L+1) afterwards. -/
theorem C1_quota_exhaustion (ps : PluginState) (st : Store)
    (prompt message u : String) (g : Option String) (now : Now) (L : Nat)
    (hr : ps.redis = true) (hp : ¬ pyStrip prompt = "")
    (hs : shouldSkipMessage ps message = false)
    (he : ps.exempt_users.contains u = false)
    (hL : getUserLimit ps u g now = .fin L)
    (h0 : counterVal st (govKey ps u g now) = 0) :
    ((runRequests ps prompt message u g now (L + 1) st).1.take L).all
        Decision.isAllowed = true ∧
    (runRequests ps prompt message u g now (L + 1) st).1.drop L = [.denied] ∧
    counterVal (runRequests ps prompt message u g now (L + 1) st).2
      (govKey ps u g now) = L := by
  have hrunL := runRequests_allowed_inv ps prompt message u g now L hr hp hs he hL L st
    (by omega)
  have hcL : counterVal (runRequests ps prompt message u g now L st).2
      (govKey ps u g now) = L := by
    rw [hrunL.2, h0]
    omega
  have hden := step_denied ps (runRequests ps prompt message u g now L st).2
    prompt message u g now L hr hp hs he hL (by rw [hcL])
  have hadd := runRequests_add ps prompt message u g now L 1 st
  have hlen := runRequests_length ps prompt message u g now L st
  have hrun1 : runRequests ps prompt message u g now 1
      (runRequests ps prompt message u g now L st).2 =
      ([(on_llm_request ps (runRequests ps prompt message u g now L st).2
          prompt message u g now).1],
        (on_llm_request ps (runRequests ps prompt message u g now L st).2
          prompt message u g now).2) := rfl
  refine ⟨?_, ?_, ?_⟩
  · rw [hadd]
    rw [take_len_append _ _ _ hlen]
    exact hrunL.1
  · rw [hadd]
    rw [drop_len_append _ _ _ hlen]
    rw [hrun1, hden]
  · rw [hadd]
    rw [hrun1, hden]
    simpa [counterVal] using hcL

/-- Witness for C1 at limit 2: three identical private requests under
default limit 2 yield Allowed, Allowed, Denied and leave the counter at 2. -/
theorem C1_quota_exhaustion_witness :
    ((runRequests
        { redis := true, exempt_users := [], user_limits := [], group_limits := [],
          group_modes := [], time_period_limits := [], default_daily_limit := 2,
          skip_patterns := [] } "hi" "hi" "u1" none
        { date := "2024-01-01", sod := 36000 } (2 + 1) {}).1.take 2).all
        Decision.isAllowed = true ∧
    (runRequests
        { redis := true, exempt_users := [], user_limits := [], group_limits := [],
          group_modes := [], time_period_limits := [], default_daily_limit := 2,
          skip_patterns := [] } "hi" "hi" "u1" none
        { date := "2024-01-01", sod := 36000 } (2 + 1) {}).1.drop 2 = [.denied] ∧
    counterVal (runRequests
        { redis := true, exempt_users := [], user_limits := [], group_limits := [],
          group_modes := [], time_period_limits := [], default_daily_limit := 2,
          skip_patterns := [] } "hi" "hi" "u1" none
        { date := "2024-01-01", sod := 36000 } (2 + 1) {}).2
      (govKey
        { redis := true, exempt_users := [], user_limits := [], group_limits := [],
          group_modes := [], time_period_limits := [], default_daily_limit := 2,
          skip_patterns := [] } "u1" none { date := "2024-01-01", sod := 36000 }) = 2 :=
  C1_quota_exhaustion _ _ "hi" "hi" "u1" none _ 2 rfl (by decide) rfl rfl rfl rfl

end DailyLimit

namespace DailyLimit

/-- C7: whenever the shared counter store is unreachable (the Redis handle
is None), every request on the enforcement path is stopped and rejected —
the handler returns the fail-closed `storeDown` outcome for every identity,
context and store content, and never an Allowed or Exempt outcome, leaving
the store untouched. -/
theorem C7_fail_closed (ps : PluginState) (st : Store) (prompt message u : String)
    (g : Option String) (now : Now) (hr : ps.redis = false) :
    on_llm_request ps st prompt message u g now = (.storeDown, st) := by
  rw [on_llm_request]
  simp [hr]

/-- Witness for C7: a concrete request against a disconnected store is
rejected with the store untouched. -/
theorem C7_fail_closed_witness :
    on_llm_request
      { redis := false, exempt_users := [], user_limits := [], group_limits := [],
        group_modes := [], time_period_limits := [], default_daily_limit := 10,
        skip_patterns := [] } {} "hi" "hi" "u1" none
      { date := "2024-01-01", sod := 36000 } = (.storeDown, {}) :=
  C7_fail_closed _ {} "hi" "hi" "u1" none _ rfl

/-- C10 (amended): for every request whose prompt is empty or
whitespace-only, or whose non-empty message string starts with one of the
configured skip patterns, the handler stops the event and rejects the
request with the store completely untouched (no counter read or increment,
no usage record) — even for identities in the exempt set, because the skip
check precedes the exemption check.  (When the store is down the same
rejected-without-side-effects outcome holds via the fail-closed branch.) -/
theorem C10_skip_before_exemption (ps : PluginState) (st : Store)
    (prompt message u : String) (g : Option String) (now : Now)
    (h : pyStrip prompt = "" ∨
      (message ≠ "" ∧ ps.skip_patterns.any
        (fun p => p.data.isPrefixOf message.data) = true)) :
    ((on_llm_request ps st prompt message u g now).1 = .skipped ∨
      (on_llm_request ps st prompt message u g now).1 = .storeDown) ∧
    (on_llm_request ps st prompt message u g now).2 = st := by
  have hskip : pyStrip prompt = "" ∨ shouldSkipMessage ps message = true := by
    rcases h with h | ⟨hm, ha⟩
    · exact Or.inl h
    · refine Or.inr ?_
      rw [shouldSkipMessage]
      have hne : ¬ ps.skip_patterns.isEmpty := by
        cases hps : ps.skip_patterns with
        | nil => rw [hps] at ha; simp [List.any] at ha
        | cons p t => simp [hps]
      rw [if_neg (by simp [hm, hne])]
      exact ha
  by_cases hr : ps.redis
  · rw [on_llm_request]
    simp only [hr, Bool.not_true]
    rw [if_neg (by decide)]
    rw [if_pos (by rcases hskip with h | h <;> simp [h])]
    exact ⟨Or.inl rfl, rfl⟩
  · rw [on_llm_request]
    simp only [Bool.not_eq_true] at hr
    simp [hr]

/-- Witness for C10 (amended): a whitespace-only prompt from an exempt user
is rejected with the store untouched (the skip check fires before the
exemption check). -/
theorem C10_skip_before_exemption_witness :
    ((on_llm_request
        { redis := true, exempt_users := ["u1"], user_limits := [], group_limits := [],
          group_modes := [], time_period_limits := [], default_daily_limit := 10,
          skip_patterns := ["#"] } {} "  " "hello" "u1" none
        { date := "2024-01-01", sod := 36000 }).1 = .skipped ∨
      (on_llm_request
        { redis := true, exempt_users := ["u1"], user_limits := [], group_limits := [],
          group_modes := [], time_period_limits := [], default_daily_limit := 10,
          skip_patterns := ["#"] } {} "  " "hello" "u1" none
        { date := "2024-01-01", sod := 36000 }).1 = .storeDown) ∧
    (on_llm_request
        { redis := true, exempt_users := ["u1"], user_limits := [], group_limits := [],
          group_modes := [], time_period_limits := [], default_daily_limit := 10,
          skip_patterns := ["#"] } {} "  " "hello" "u1" none
        { date := "2024-01-01", sod := 36000 }).2 = {} :=
  C10_skip_before_exemption _ {} "  " "hello" "u1" none _ (Or.inl (by decide))

/-- C10 counterexample: the claim as stated is false at one corner input.
With the empty string configured as a skip pattern and an empty message
string, the message does start with a configured skip pattern (every string
starts with ""), yet `_should_skip_message` returns False for empty
messages, so an exempt requester is allowed through rather than rejected. -/
theorem C10_skip_before_exemption_cx :
    ("" : String).data.isPrefixOf ("" : String).data = true ∧
    (on_llm_request
        { redis := true, exempt_users := ["u1"], user_limits := [], group_limits := [],
          group_modes := [], time_period_limits := [], default_daily_limit := 10,
          skip_patterns := [""] } {} "hi" "" "u1" none
        { date := "2024-01-01", sod := 36000 }).1 = .exempt := by
  constructor
  · decide
  · decide

end DailyLimit

namespace DailyLimit

def StoreOp.isIncr : StoreOp → Bool
  | .incr _ => true
  | _ => false

def StoreOp.isDecr : StoreOp → Bool
  | .decr _ => true
  | _ => false

/-- C3 counterexample: the claim's increment-then-compensate algorithm is
not what the code performs.  At a concrete non-exempt request that is
denied (limit 0, fresh counter), the operation log of the request contains
no increment and no decrement at all — the handler reads the counter,
compares, and stops; it never increments first nor issues a compensating
decrement. -/
theorem C3_check_then_increment_cx :
    (on_llm_request
        { redis := true, exempt_users := [], user_limits := [], group_limits := [],
          group_modes := [], time_period_limits := [], default_daily_limit := 0,
          skip_patterns := [] } {} "hi" "hi" "u1" none
        { date := "2024-01-01", sod := 36000 }).1 = .denied ∧
    (on_llm_request
        { redis := true, exempt_users := [], user_limits := [], group_limits := [],
          group_modes := [], time_period_limits := [], default_daily_limit := 0,
          skip_patterns := [] } {} "hi" "hi" "u1" none
        { date := "2024-01-01", sod := 36000 }).2.log.any StoreOp.isIncr = false ∧
    (on_llm_request
        { redis := true, exempt_users := [], user_limits := [], group_limits := [],
          group_modes := [], time_period_limits := [], default_daily_limit := 0,
          skip_patterns := [] } {} "hi" "hi" "u1" none
        { date := "2024-01-01", sod := 36000 }).2.log.any StoreOp.isDecr = false := by
  refine ⟨?_, ?_, ?_⟩ <;> decide

/-- C3 (amended): the handler follows check-then-increment.  For every
valid non-exempt request with effective limit L it first reads the
governing counter; when the read value is ≥ L it returns Denied having
issued only that read (no increment, no decrement, counters unchanged);
when the read value is < L it is allowed and the governing counter is
incremented exactly once, after the admission decision. -/
theorem C3_check_then_increment (ps : PluginState) (st : Store)
    (prompt message u : String) (g : Option String) (now : Now) (L : Nat)
    (hr : ps.redis = true) (hp : ¬ pyStrip prompt = "")
    (hs : shouldSkipMessage ps message = false)
    (he : ps.exempt_users.contains u = false)
    (hL : getUserLimit ps u g now = .fin L) :
    (L ≤ counterVal st (govKey ps u g now) →
      on_llm_request ps st prompt message u g now =
        (.denied, { st with log := st.log ++ [.get (govKey ps u g now)] })) ∧
    (counterVal st (govKey ps u g now) < L →
      (on_llm_request ps st prompt message u g now).1.isAllowed = true ∧
      (on_llm_request ps st prompt message u g now).2.counters =
        setKVal st.counters (govKey ps u g now)
          (counterVal st (govKey ps u g now) + 1)) := by
  constructor
  · intro hge
    exact step_denied ps st prompt message u g now L hr hp hs he hL hge
  · intro hlt
    obtain ⟨h1, h2, _⟩ :=
      step_allowed ps st prompt message u g now L hr hp hs he hL hlt
    rw [h1, h2]
    exact ⟨rfl, rfl⟩

/-- Witness for C3 (amended): a concrete denied request (limit 0) leaves
the counters untouched and logs only the read. -/
theorem C3_check_then_increment_witness :
    on_llm_request
      { redis := true, exempt_users := [], user_limits := [], group_limits := [],
        group_modes := [], time_period_limits := [], default_daily_limit := 0,
        skip_patterns := [] } {} "hi" "hi" "u1" none
      { date := "2024-01-01", sod := 36000 } =
    (.denied,
      { counters := [], ttls := [], lists := [], hashes := [],
        log := [.get "astrbot:daily_limit:2024-01-01:private_chat:u1"] }) :=
  (C3_check_then_increment
    { redis := true, exempt_users := [], user_limits := [], group_limits := [],
      group_modes := [], time_period_limits := [], default_daily_limit := 0,
      skip_patterns := [] } {} "hi" "hi" "u1" none
    { date := "2024-01-01", sod := 36000 } 0 rfl (by decide) rfl rfl rfl).1
    (by decide)

/-- C4 counterexample: the reminder is not a function of the
post-consumption remaining count.  With limit 1 and a fresh counter the
request is allowed AND the reminder fires (announcing 1), yet after this
request's consumption the counter is 1, so the post-consumption remaining
count is 1 - 1 = 0, which is not in {1, 3, 5}. -/
theorem C4_reminder_rule_cx :
    (on_llm_request
        { redis := true, exempt_users := [], user_limits := [], group_limits := [],
          group_modes := [], time_period_limits := [], default_daily_limit := 1,
          skip_patterns := [] } {} "hi" "hi" "u1" none
        { date := "2024-01-01", sod := 36000 }).1 = .allowed (some 1) ∧
    counterVal (on_llm_request
        { redis := true, exempt_users := [], user_limits := [], group_limits := [],
          group_modes := [], time_period_limits := [], default_daily_limit := 1,
          skip_patterns := [] } {} "hi" "hi" "u1" none
        { date := "2024-01-01", sod := 36000 }).2
      (govKey
        { redis := true, exempt_users := [], user_limits := [], group_limits := [],
          group_modes := [], time_period_limits := [], default_daily_limit := 1,
          skip_patterns := [] } "u1" none { date := "2024-01-01", sod := 36000 }) = 1 ∧
    ¬ ((1 : Nat) - 1 = 1 ∨ (1 : Nat) - 1 = 3 ∨ (1 : Nat) - 1 = 5) := by
  refine ⟨?_, ?_, ?_⟩ <;> decide

/-- C4 (amended): for every Allowed decision the low-quota reminder is
signaled if and only if the PRE-consumption remaining count
(limit - usage-before-this-request) is 1, 3 or 5 — equivalently, the
post-consumption remaining count is 0, 2 or 4; it never fires for any
other value. -/
theorem C4_reminder_rule (ps : PluginState) (st : Store)
    (prompt message u : String) (g : Option String) (now : Now) (L : Nat)
    (hr : ps.redis = true) (hp : ¬ pyStrip prompt = "")
    (hs : shouldSkipMessage ps message = false)
    (he : ps.exempt_users.contains u = false)
    (hL : getUserLimit ps u g now = .fin L)
    (hlt : counterVal st (govKey ps u g now) < L) :
    (on_llm_request ps st prompt message u g now).1 =
      .allowed (if L - counterVal st (govKey ps u g now) = 1 ∨
          L - counterVal st (govKey ps u g now) = 3 ∨
          L - counterVal st (govKey ps u g now) = 5
        then some (L - counterVal st (govKey ps u g now)) else none) :=
  (step_allowed ps st prompt message u g now L hr hp hs he hL hlt).1

/-- Witness for C4 (amended): with limit 5 and a fresh counter the first
request is allowed and the reminder announces the pre-consumption
remaining count 5. -/
theorem C4_reminder_rule_witness :
    (on_llm_request
        { redis := true, exempt_users := [], user_limits := [], group_limits := [],
          group_modes := [], time_period_limits := [], default_daily_limit := 5,
          skip_patterns := [] } {} "hi" "hi" "u1" none
        { date := "2024-01-01", sod := 36000 }).1 = .allowed (some 5) := by
  have h := C4_reminder_rule
    { redis := true, exempt_users := [], user_limits := [], group_limits := [],
      group_modes := [], time_period_limits := [], default_daily_limit := 5,
      skip_patterns := [] } {} "hi" "hi" "u1" none
    { date := "2024-01-01", sod := 36000 } 5 rfl (by decide) rfl rfl rfl (by decide)
  simpa using h

end DailyLimit

namespace DailyLimit

/- Modelled from the spec: "seconds_until_period_end is computed ... from
the active window's end time when a window counter is used" — the seconds
from `now` to the end of the active window (for a non-wrapping window
containing `now`). -/
def specSecondsUntilWindowEnd (w : TimePeriod) (t : Now) : Nat :=
  w.end_time * 60 - t.sod

/-- C6 counterexample: the expiry is neither set only on first consumption
nor tied to the window's end.  With an active window 10:00–11:00 (limit 5),
a first allowed request at 10:30:00 leaves the window counter's TTL at
48600 s (to next midnight), not the 1800 s to the window's end; a second
allowed request one minute later rewrites the TTL to 48540 s, so a
subsequent increment does change the time-to-live. -/
theorem C6_expiry_cx :
    lookupK (on_llm_request
        { redis := true, exempt_users := [], user_limits := [], group_limits := [],
          group_modes := [], default_daily_limit := 10, skip_patterns := [],
          time_period_limits :=
            [{ start_time := 600, end_time := 660, limit := 5, enabled := true }] }
        {} "hi" "hi" "u1" none { date := "2024-01-01", sod := 37800 }).2.ttls
      (getTimePeriodUsageKeyAt "2024-01-01" 0 (some "u1") none) = some 48600 ∧
    lookupK (on_llm_request
        { redis := true, exempt_users := [], user_limits := [], group_limits := [],
          group_modes := [], default_daily_limit := 10, skip_patterns := [],
          time_period_limits :=
            [{ start_time := 600, end_time := 660, limit := 5, enabled := true }] }
        (on_llm_request
          { redis := true, exempt_users := [], user_limits := [], group_limits := [],
            group_modes := [], default_daily_limit := 10, skip_patterns := [],
            time_period_limits :=
              [{ start_time := 600, end_time := 660, limit := 5, enabled := true }] }
          {} "hi" "hi" "u1" none { date := "2024-01-01", sod := 37800 }).2
        "hi" "hi" "u1" none { date := "2024-01-01", sod := 37860 }).2.ttls
      (getTimePeriodUsageKeyAt "2024-01-01" 0 (some "u1") none) = some 48540 ∧
    specSecondsUntilWindowEnd
      { start_time := 600, end_time := 660, limit := 5, enabled := true }
      { date := "2024-01-01", sod := 37800 } = 1800 ∧
    (48600 ≠ 1800 ∧ 48540 ≠ 48600) := by
  refine ⟨?_, ?_, ?_, ?_, ?_⟩ <;> decide

/-- C6 (amended): on every Allowed request — not only the first of the
period — the increment pipeline rewrites the governing counter's
time-to-live to the seconds remaining until the next midnight, for daily
and window counters alike; a window counter's TTL therefore runs to
midnight, not to the window's end, and is refreshed by every increment. -/
theorem C6_expiry_refresh (ps : PluginState) (st : Store)
    (prompt message u : String) (g : Option String) (now : Now) (L : Nat)
    (hr : ps.redis = true) (hp : ¬ pyStrip prompt = "")
    (hs : shouldSkipMessage ps message = false)
    (he : ps.exempt_users.contains u = false)
    (hL : getUserLimit ps u g now = .fin L)
    (hlt : counterVal st (govKey ps u g now) < L) :
    lookupK (on_llm_request ps st prompt message u g now).2.ttls
      (govKey ps u g now) = some (secondsUntilTomorrow now) :=
  (step_allowed ps st prompt message u g now L hr hp hs he hL hlt).2.2

/-- Witness for C6 (amended): the second in-window request above leaves the
window counter's TTL at the seconds to midnight computed at its own call
time. -/
theorem C6_expiry_refresh_witness :
    lookupK (on_llm_request
        { redis := true, exempt_users := [], user_limits := [], group_limits := [],
          group_modes := [], default_daily_limit := 10, skip_patterns := [],
          time_period_limits :=
            [{ start_time := 600, end_time := 660, limit := 5, enabled := true }] }
        {} "hi" "hi" "u1" none { date := "2024-01-01", sod := 37800 }).2.ttls
      (govKey
        { redis := true, exempt_users := [], user_limits := [], group_limits := [],
          group_modes := [], default_daily_limit := 10, skip_patterns := [],
          time_period_limits :=
            [{ start_time := 600, end_time := 660, limit := 5, enabled := true }] }
        "u1" none { date := "2024-01-01", sod := 37800 }) = some 48600 :=
  C6_expiry_refresh
    { redis := true, exempt_users := [], user_limits := [], group_limits := [],
      group_modes := [], default_daily_limit := 10, skip_patterns := [],
      time_period_limits :=
        [{ start_time := 600, end_time := 660, limit := 5, enabled := true }] }
    {} "hi" "hi" "u1" none { date := "2024-01-01", sod := 37800 } 5
    rfl (by decide) rfl rfl rfl (by decide)

end DailyLimit

namespace DailyLimit

/- Modelled from the spec: "exactly one effective limit is chosen by
evaluating, in strict priority order ... (1) identity ∈ exempt set → ∞;
(2) first enabled time window whose interval contains now → that window's
limit; (3) per-identity override; (4) per-group override; (5) global
default" — stated over the raw configuration, whose windows carry their
enabled flags. -/
def specFirstEnabledWindow (minutes : Nat) : List TimePeriod → Option Nat
  | [] => none
  | w :: ws =>
    if w.enabled && isInTimePeriod minutes w.start_time w.end_time then some w.limit
    else specFirstEnabledWindow minutes ws

/- Modelled from the spec (resolution invariant, spec.md section 3). -/
def specResolve (cfg : PluginState) (u : String) (g : Option String) (now : Now) :
    EffLimit :=
  if cfg.exempt_users.contains u then .inf
  else
    match specFirstEnabledWindow now.minutes cfg.time_period_limits with
    | some l => .fin l
    | none =>
      match lookupK cfg.user_limits u with
      | some l => .fin l
      | none =>
        match g with
        | some gid =>
          match lookupK cfg.group_limits gid with
          | some l => .fin l
          | none => .fin cfg.default_daily_limit
        | none => .fin cfg.default_daily_limit

theorem scan_loadTimePeriodLimits (minutes : Nat) (l : List TimePeriod) :
    scanTimePeriodLimit minutes (loadTimePeriodLimits l) =
      specFirstEnabledWindow minutes l := by
  induction l with
  | nil => simp [loadTimePeriodLimits, scanTimePeriodLimit, specFirstEnabledWindow]
  | cons w ws ih =>
    by_cases he : w.enabled
    · by_cases hin : isInTimePeriod minutes w.start_time w.end_time
      · simp [loadTimePeriodLimits, scanTimePeriodLimit, specFirstEnabledWindow, he, hin]
      · simp only [loadTimePeriodLimits, List.filter_cons, he, if_true,
          scanTimePeriodLimit, specFirstEnabledWindow, hin]
        simp only [loadTimePeriodLimits] at ih
        simp [hin, ih]
    · simp only [loadTimePeriodLimits, List.filter_cons, specFirstEnabledWindow]
      simp only [loadTimePeriodLimits] at ih
      simp [he, ih]

/-- C2: starting from any raw configuration (loaded as the plugin
constructor does, and with no per-group override registered under the empty
group identifier, which the loader cannot produce), the effective limit
equals, for every (identity, group, now), the spec's strict-priority
resolution: exemption, then the first enabled matching time window, then
the per-identity override, then the per-group override, then the global
default.  In particular, in the scenario with a per-identity limit of 10
for "U1", a per-group limit of 2 for "G1" and an active window granting 1,
resolution returns 1. -/
theorem C2_resolution_priority :
    (∀ (cfg : PluginState) (u : String) (g : Option String) (now : Now),
      lookupK cfg.group_limits "" = none →
      getUserLimit (loadPlugin cfg) u g now = specResolve cfg u g now) ∧
    specResolve
      { redis := true, exempt_users := [], user_limits := [("U1", 10)],
        group_limits := [("G1", 2)], group_modes := [],
        time_period_limits :=
          [{ start_time := 600, end_time := 720, limit := 1, enabled := true }],
        default_daily_limit := 20, skip_patterns := [] }
      "U1" (some "G1") { date := "2024-01-01", sod := 39600 } = .fin 1 ∧
    getUserLimit (loadPlugin
      { redis := true, exempt_users := [], user_limits := [("U1", 10)],
        group_limits := [("G1", 2)], group_modes := [],
        time_period_limits :=
          [{ start_time := 600, end_time := 720, limit := 1, enabled := true }],
        default_daily_limit := 20, skip_patterns := [] })
      "U1" (some "G1") { date := "2024-01-01", sod := 39600 } = .fin 1 := by
  refine ⟨?_, by decide, by decide⟩
  intro cfg u g now hge
  have hscan := scan_loadTimePeriodLimits now.minutes cfg.time_period_limits
  by_cases hex : u ∈ cfg.exempt_users
  · simp [getUserLimit, specResolve, loadPlugin, hex]
  · rcases hw : specFirstEnabledWindow now.minutes cfg.time_period_limits with _ | l
    · rcases hu : lookupK cfg.user_limits u with _ | l'
      · rcases g with _ | gid
        · simp [getUserLimit, specResolve, loadPlugin, getCurrentTimePeriodLimit,
            hscan, hex, hw, hu]
        · by_cases hgid : gid = ""
          · subst hgid
            simp [getUserLimit, specResolve, loadPlugin, getCurrentTimePeriodLimit,
              hscan, hex, hw, hu, hge]
          · simp [getUserLimit, specResolve, loadPlugin, getCurrentTimePeriodLimit,
              hscan, hex, hw, hu, hgid]
      · simp [getUserLimit, specResolve, loadPlugin, getCurrentTimePeriodLimit,
          hscan, hex, hw, hu]
    · simp [getUserLimit, specResolve, loadPlugin, getCurrentTimePeriodLimit,
        hscan, hex, hw]

/-- Witness for C2: the resolution equality applied at the scenario
configuration, whose group-override table has no entry for the empty
group identifier. -/
theorem C2_resolution_priority_witness :
    lookupK ([("G1", 2)] : List (String × Nat)) "" = none ∧
    getUserLimit (loadPlugin
      { redis := true, exempt_users := [], user_limits := [("U1", 10)],
        group_limits := [("G1", 2)], group_modes := [],
        time_period_limits :=
          [{ start_time := 600, end_time := 720, limit := 1, enabled := true }],
        default_daily_limit := 20, skip_patterns := [] })
      "U1" (some "G1") { date := "2024-01-01", sod := 39600 } =
    specResolve
      { redis := true, exempt_users := [], user_limits := [("U1", 10)],
        group_limits := [("G1", 2)], group_modes := [],
        time_period_limits :=
          [{ start_time := 600, end_time := 720, limit := 1, enabled := true }],
        default_daily_limit := 20, skip_patterns := [] }
      "U1" (some "G1") { date := "2024-01-01", sod := 39600 } :=
  ⟨by decide, C2_resolution_priority.1
    { redis := true, exempt_users := [], user_limits := [("U1", 10)],
      group_limits := [("G1", 2)], group_modes := [],
      time_period_limits :=
        [{ start_time := 600, end_time := 720, limit := 1, enabled := true }],
      default_daily_limit := 20, skip_patterns := [] }
    "U1" (some "G1") { date := "2024-01-01", sod := 39600 } (by decide)⟩

/-- C5: a time window disabled at runtime still determines the effective
limit.  `limit timeperiod disable` only flips the window's `enabled` field
in the in-memory list (main.py:1819), but `_get_current_time_period_limit`
(main.py:296-298) never consults that field; so after disabling the single
window 10:00–12:00 (limit 5), a request at 11:00 still resolves to limit 5
from the disabled window instead of the global default 10. -/
theorem C5_disabled_window_still_fires :
    (timeperiodDisable (loadTimePeriodLimits
        [{ start_time := 600, end_time := 720, limit := 5, enabled := true }]) 0).get? 0 =
      some { start_time := 600, end_time := 720, limit := 5, enabled := false } ∧
    getUserLimit
      { redis := true, exempt_users := [], user_limits := [], group_limits := [],
        group_modes := [],
        time_period_limits := timeperiodDisable (loadTimePeriodLimits
          [{ start_time := 600, end_time := 720, limit := 5, enabled := true }]) 0,
        default_daily_limit := 10, skip_patterns := [] }
      "u1" none { date := "2024-01-01", sod := 39600 } = .fin 5 := by
  constructor
  · rfl
  · decide

end DailyLimit

namespace DailyLimit

/-! ## Trend snapshot storage (src/web_server.py, TrendDataStorage)

One JSON file per date key; a record is an association list from field
names to JSON values (numbers and strings are what the statistics use).
`dictUpdate` embeds Python `dict.update`: fields of the update override,
all other existing fields are preserved. -/

inductive JVal where
  | num : Nat → JVal
  | str : String → JVal
deriving Repr, DecidableEq

def dictUpdate (old upd : List (String × JVal)) : List (String × JVal) :=
  upd.foldl (fun d p => setKVal d p.1 p.2) old

structure TrendStorage where
  files : List (String × List (String × JVal)) := []
deriving Repr, DecidableEq

/- Embeds `TrendDataStorage.save_daily_stats` (web_server.py:73-109):
reject empty payloads, merge into any existing record for the date,
stamp `date` and `saved_at`, and persist under the date key. -/
def save_daily_stats (ts : TrendStorage) (dateKey : String)
    (stats : List (String × JVal)) (savedAt : String) : Bool × TrendStorage :=
  if stats.isEmpty then (false, ts)
  else
    let merged :=
      match lookupK ts.files dateKey with
      | some existing => dictUpdate existing stats
      | none => stats
    let merged := setKVal merged "date" (.str dateKey)
    let merged := setKVal merged "saved_at" (.str savedAt)
    (true, { files := setKVal ts.files dateKey merged })

/- Embeds `TrendDataStorage.load_daily_stats` (web_server.py:111-125). -/
def load_daily_stats (ts : TrendStorage) (dateKey : String) :
    Option (List (String × JVal)) :=
  lookupK ts.files dateKey

theorem dictUpdate_singleton (old : List (String × JVal)) (k : String) (v : JVal) :
    dictUpdate old [(k, v)] = setKVal old k v := rfl

/-- C9: trend snapshot save is a per-field merge.  From any starting
storage state and for every date, saving {total_requests: 5}, then saving
{active_users: 2}, then loading the date yields a record that contains
both total_requests = 5 and active_users = 2: a later partial write never
erases fields it does not mention. -/
theorem C9_trend_merge (ts : TrendStorage) (dateKey sa₁ sa₂ : String) :
    ∃ r, load_daily_stats
        (save_daily_stats
          (save_daily_stats ts dateKey [("total_requests", .num 5)] sa₁).2
          dateKey [("active_users", .num 2)] sa₂).2 dateKey = some r ∧
      lookupK r "total_requests" = some (.num 5) ∧
      lookupK r "active_users" = some (.num 2) := by
  rw [save_daily_stats]
  rw [if_neg (by decide)]
  simp only []
  rw [save_daily_stats]
  rw [if_neg (by decide)]
  simp only [load_daily_stats, lookupK_setKVal_self, dictUpdate_singleton]
  refine ⟨_, rfl, ?_, ?_⟩
  · rw [lookupK_setKVal_ne _ _ _ _ (by decide), lookupK_setKVal_ne _ _ _ _ (by decide),
      lookupK_setKVal_ne _ _ _ _ (by decide)]
    rcases hold : lookupK ts.files dateKey with _ | existing
    · simp only [hold]
      rw [lookupK_setKVal_ne _ _ _ _ (by decide), lookupK_setKVal_ne _ _ _ _ (by decide)]
      decide
    · simp only [hold]
      rw [lookupK_setKVal_ne _ _ _ _ (by decide), lookupK_setKVal_ne _ _ _ _ (by decide),
        lookupK_setKVal_self]
  · rw [lookupK_setKVal_ne _ _ _ _ (by decide), lookupK_setKVal_ne _ _ _ _ (by decide),
      lookupK_setKVal_self]

end DailyLimit

namespace DailyLimit

/-! ## Counter-key injectivity (claim C8)

A logical scope within one reset period: a per-user daily counter (private
or per-member-in-group), a shared per-group daily counter, or a window
counter (window index, member-or-None, group-or-private). -/

inductive Scope where
  | userScope : String → Option String → Scope
  | groupScope : String → Scope
  | windowScope : Nat → Option String → Option String → Scope
deriving Repr, DecidableEq

/- The key each scope maps to, by the source's key constructors. -/
def keyOf (d : String) : Scope → String
  | .userScope u g => getUserKey d u g
  | .groupScope g => getGroupKey d g
  | .windowScope i u g => getTimePeriodUsageKeyAt d i u g

/- The colon-separated segments of each key. -/
def keySegs (d : String) : Scope → List (List Char)
  | .userScope u g =>
    ["astrbot".data, "daily_limit".data, d.data, (g.getD "private_chat").data, u.data]
  | .groupScope g =>
    ["astrbot".data, "daily_limit".data, d.data, "group".data, g.data]
  | .windowScope i u g =>
    ["astrbot".data, "time_period_limit".data, d.data, (natDecimal i).data,
      (g.getD "private_chat").data, (pyOptStr u).data]

def joinColon : List (List Char) → List Char
  | [] => []
  | [s] => s
  | s :: t => s ++ ':' :: joinColon t

theorem dlPrefix_data :
    ("astrbot:daily_limit:" : String).data =
      "astrbot".data ++ ':' :: ("daily_limit".data ++ [':']) := rfl

theorem tpPrefix_data :
    ("astrbot:time_period_limit:" : String).data =
      "astrbot".data ++ ':' :: ("time_period_limit".data ++ [':']) := rfl

theorem groupMid_data :
    (":group:" : String).data = ':' :: ("group".data ++ [':']) := rfl

/- Every key is the colon-join of its segments. -/
theorem keyData (d : String) (s : Scope) :
    (keyOf d s).data = joinColon (keySegs d s) := by
  rcases s with ⟨u, g⟩ | g | ⟨i, u, g⟩
  · simp [keyOf, keySegs, getUserKey, getTodayKey, String.data_append, dlPrefix_data,
      colon_data, joinColon]
  · simp [keyOf, keySegs, getGroupKey, getTodayKey, String.data_append, dlPrefix_data,
      groupMid_data, joinColon]
  · simp [keyOf, keySegs, getTimePeriodUsageKeyAt, String.data_append, tpPrefix_data,
      colon_data, joinColon]

end DailyLimit

namespace DailyLimit

/- Splitting at the first colon is unambiguous for colon-free left parts. -/
theorem colon_split (x : List Char) :
    ∀ (y m n : List Char), ':' ∉ x → ':' ∉ y →
      x ++ ':' :: m = y ++ ':' :: n → x = y ∧ m = n := by
  induction x with
  | nil =>
    intro y m n _ hy h
    cases y with
    | nil => simpa using h
    | cons b ys =>
      simp only [List.nil_append, List.cons_append, List.cons.injEq] at h
      exact absurd (by simp [← h.1]) hy
  | cons a xs ih =>
    intro y m n hx hy h
    cases y with
    | nil =>
      simp only [List.nil_append, List.cons_append, List.cons.injEq] at h
      exact absurd (by simp [h.1]) hx
    | cons b ys =>
      simp only [List.cons_append, List.cons.injEq] at h
      have hxs : ':' ∉ xs := fun hm => hx (by simp [hm])
      have hys : ':' ∉ ys := fun hm => hy (by simp [hm])
      obtain ⟨h1, h2⟩ := ih ys m n hxs hys h.2
      exact ⟨by rw [h.1, h1], h2⟩

theorem joinColon_count (l : List (List Char)) :
    l ≠ [] → (∀ s ∈ l, ':' ∉ s) →
      (joinColon l).count ':' = l.length - 1 := by
  induction l with
  | nil => intro h; exact absurd rfl h
  | cons x t ih =>
    intro _ hcf
    cases t with
    | nil =>
      have hx : ':' ∉ x := hcf x (by simp)
      simp [joinColon, List.count_eq_zero.mpr hx]
    | cons y r =>
      have hx : ':' ∉ x := hcf x (by simp)
      have ht : ∀ s ∈ y :: r, ':' ∉ s := fun s hs => hcf s (by simp [hs])
      have hrec := ih (by simp) ht
      show (x ++ ':' :: joinColon (y :: r)).count ':' = (y :: r).length
      rw [List.count_append, List.count_cons]
      rw [List.count_eq_zero.mpr hx, hrec]
      simp

theorem joinColon_inj_len (a : List (List Char)) :
    ∀ (b : List (List Char)), a.length = b.length →
      (∀ s ∈ a, ':' ∉ s) → (∀ s ∈ b, ':' ∉ s) →
      joinColon a = joinColon b → a = b := by
  induction a with
  | nil =>
    intro b hlen _ _ _
    cases b with
    | nil => rfl
    | cons y ys => simp at hlen
  | cons x xs ih =>
    intro b hlen ha hb hj
    cases b with
    | nil => simp at hlen
    | cons y ys =>
      have hx : ':' ∉ x := ha x (by simp)
      have hy : ':' ∉ y := hb y (by simp)
      cases xs with
      | nil =>
        cases ys with
        | nil =>
          simp only [joinColon] at hj
          rw [hj]
        | cons y' ys' => simp at hlen
      | cons x' xs' =>
        cases ys with
        | nil => simp at hlen
        | cons y' ys' =>
          have hj' : x ++ ':' :: joinColon (x' :: xs') =
              y ++ ':' :: joinColon (y' :: ys') := hj
          obtain ⟨h1, h2⟩ := colon_split x _ _ _ hx hy hj'
          have := ih (y' :: ys') (by simpa using hlen)
            (fun s hs => ha s (by simp [hs])) (fun s hs => hb s (by simp [hs])) h2
          rw [h1, this]

end DailyLimit

namespace DailyLimit

/- Well-formedness of the opaque identifier strings for which the key
construction can be injective: colon-free, and avoiding the reserved
renderings ("group" and "private_chat" as group ids of daily keys,
"private_chat" as a window-scope group id, "None" as a window-scope
member id). -/

def okStrB (s : String) : Bool := decide (':' ∉ s.data)

def okGroupB : Option String → Bool
  | none => true
  | some x => okStrB x && decide (x ≠ "group") && decide (x ≠ "private_chat")

def okWinUserB : Option String → Bool
  | none => true
  | some x => okStrB x && decide (x ≠ "None")

def okWinGroupB : Option String → Bool
  | none => true
  | some x => okStrB x && decide (x ≠ "private_chat")

def okScopeB : Scope → Bool
  | .userScope u g => okStrB u && okGroupB g
  | .groupScope g => okStrB g
  | .windowScope _ u g => okWinUserB u && okWinGroupB g

theorem keySegs_len_pos (d : String) (s : Scope) : keySegs d s ≠ [] := by
  rcases s with ⟨u, g⟩ | g | ⟨i, u, g⟩ <;> simp [keySegs]

theorem okGroupB_colonFree (g : Option String) (h : okGroupB g = true) :
    ':' ∉ (g.getD "private_chat").data := by
  cases g with
  | none => decide
  | some x =>
    simp only [okGroupB, okStrB, Bool.and_eq_true, decide_eq_true_eq] at h
    exact h.1.1

theorem okWinGroupB_colonFree (g : Option String) (h : okWinGroupB g = true) :
    ':' ∉ (g.getD "private_chat").data := by
  cases g with
  | none => decide
  | some x =>
    simp only [okWinGroupB, okStrB, Bool.and_eq_true, decide_eq_true_eq] at h
    exact h.1

theorem okWinUserB_colonFree (u : Option String) (h : okWinUserB u = true) :
    ':' ∉ (pyOptStr u).data := by
  cases u with
  | none => decide
  | some x =>
    simp only [okWinUserB, okStrB, Bool.and_eq_true, decide_eq_true_eq] at h
    exact h.1

theorem keySegs_colonFree (d : String) (s : Scope) (hd : ':' ∉ d.data)
    (hok : okScopeB s = true) : ∀ seg ∈ keySegs d s, ':' ∉ seg := by
  rcases s with ⟨u, g⟩ | g | ⟨i, u, g⟩
  · simp only [okScopeB, Bool.and_eq_true] at hok
    have hu : ':' ∉ u.data := by
      have := hok.1
      simp only [okStrB, decide_eq_true_eq] at this
      exact this
    have hg := okGroupB_colonFree g hok.2
    intro seg hseg
    simp only [keySegs, List.mem_cons, List.not_mem_nil, or_false] at hseg
    rcases hseg with h | h | h | h | h <;> rw [h]
    · decide
    · decide
    · exact hd
    · exact hg
    · exact hu
  · have hg : ':' ∉ g.data := by
      simp only [okScopeB, okStrB, decide_eq_true_eq] at hok
      exact hok
    intro seg hseg
    simp only [keySegs, List.mem_cons, List.not_mem_nil, or_false] at hseg
    rcases hseg with h | h | h | h | h <;> rw [h]
    · decide
    · decide
    · exact hd
    · decide
    · exact hg
  · simp only [okScopeB, Bool.and_eq_true] at hok
    have hu := okWinUserB_colonFree u hok.1
    have hg := okWinGroupB_colonFree g hok.2
    intro seg hseg
    simp only [keySegs, List.mem_cons, List.not_mem_nil, or_false] at hseg
    rcases hseg with h | h | h | h | h | h <;> rw [h]
    · decide
    · decide
    · exact hd
    · exact natDecimal_colonFree i
    · exact hg
    · exact hu

end DailyLimit

namespace DailyLimit

theorem getD_pc_inj_daily (g₁ g₂ : Option String)
    (h1 : okGroupB g₁ = true) (h2 : okGroupB g₂ = true)
    (h : (g₁.getD "private_chat").data = (g₂.getD "private_chat").data) : g₁ = g₂ := by
  cases g₁ with
  | none =>
    cases g₂ with
    | none => rfl
    | some x =>
      simp only [okGroupB, okStrB, Bool.and_eq_true, decide_eq_true_eq] at h2
      exact absurd (string_data_inj h).symm h2.2
  | some x =>
    cases g₂ with
    | none =>
      simp only [okGroupB, okStrB, Bool.and_eq_true, decide_eq_true_eq] at h1
      exact absurd (string_data_inj h) h1.2
    | some y => exact congrArg some (string_data_inj h)

theorem getD_pc_inj_win (g₁ g₂ : Option String)
    (h1 : okWinGroupB g₁ = true) (h2 : okWinGroupB g₂ = true)
    (h : (g₁.getD "private_chat").data = (g₂.getD "private_chat").data) : g₁ = g₂ := by
  cases g₁ with
  | none =>
    cases g₂ with
    | none => rfl
    | some x =>
      simp only [okWinGroupB, okStrB, Bool.and_eq_true, decide_eq_true_eq] at h2
      exact absurd (string_data_inj h).symm h2.2
  | some x =>
    cases g₂ with
    | none =>
      simp only [okWinGroupB, okStrB, Bool.and_eq_true, decide_eq_true_eq] at h1
      exact absurd (string_data_inj h) h1.2
    | some y => exact congrArg some (string_data_inj h)

theorem pyOptStr_inj (u₁ u₂ : Option String)
    (h1 : okWinUserB u₁ = true) (h2 : okWinUserB u₂ = true)
    (h : (pyOptStr u₁).data = (pyOptStr u₂).data) : u₁ = u₂ := by
  cases u₁ with
  | none =>
    cases u₂ with
    | none => rfl
    | some x =>
      simp only [okWinUserB, okStrB, Bool.and_eq_true, decide_eq_true_eq] at h2
      exact absurd (string_data_inj h).symm h2.2
  | some x =>
    cases u₂ with
    | none =>
      simp only [okWinUserB, okStrB, Bool.and_eq_true, decide_eq_true_eq] at h1
      exact absurd (string_data_inj h) h1.2
    | some y => exact congrArg some (string_data_inj h)

/-- C8 (amended): within one reset period the counter-key construction is
deterministic and injective on logical scopes whose identifier strings are
colon-free and avoid the reserved renderings (a group id of a daily
per-user key is not "group" or "private_chat", a window-scope group id is
not "private_chat", a window-scope member id is not "None"); two keys
coincide exactly when the scopes coincide.  Without those restrictions
distinct scopes can alias (see the counterexample). -/
theorem C8_key_injective (d : String) (s₁ s₂ : Scope)
    (hd : okStrB d = true) (h1 : okScopeB s₁ = true) (h2 : okScopeB s₂ = true) :
    keyOf d s₁ = keyOf d s₂ ↔ s₁ = s₂ := by
  constructor
  · intro hk
    have hd' : ':' ∉ d.data := by simpa [okStrB] using hd
    have hcf1 := keySegs_colonFree d s₁ hd' h1
    have hcf2 := keySegs_colonFree d s₂ hd' h2
    have hjoin : joinColon (keySegs d s₁) = joinColon (keySegs d s₂) := by
      rw [← keyData, ← keyData, hk]
    have hc1 := joinColon_count _ (keySegs_len_pos d s₁) hcf1
    have hc2 := joinColon_count _ (keySegs_len_pos d s₂) hcf2
    have hcnt := congrArg (fun l => l.count ':') hjoin
    simp only [] at hcnt
    rw [hc1, hc2] at hcnt
    have hl1 : 0 < (keySegs d s₁).length := List.length_pos.mpr (keySegs_len_pos d s₁)
    have hl2 : 0 < (keySegs d s₂).length := List.length_pos.mpr (keySegs_len_pos d s₂)
    have hlen : (keySegs d s₁).length = (keySegs d s₂).length := by omega
    have hseg := joinColon_inj_len _ _ hlen hcf1 hcf2 hjoin
    clear hjoin hcnt hc1 hc2 hl1 hl2 hlen hcf1 hcf2 hk
    rcases s₁ with ⟨u₁, g₁⟩ | g₁ | ⟨i₁, u₁, g₁⟩ <;>
      rcases s₂ with ⟨u₂, g₂⟩ | g₂ | ⟨i₂, u₂, g₂⟩
    · simp only [okScopeB, Bool.and_eq_true] at h1 h2
      simp [keySegs] at hseg
      rw [getD_pc_inj_daily g₁ g₂ h1.2 h2.2 hseg.1, string_data_inj hseg.2]
    · simp only [okScopeB, Bool.and_eq_true] at h1
      simp [keySegs] at hseg
      cases g₁ with
      | none => exact absurd (string_data_inj hseg.1) (by decide)
      | some x =>
        have hx := h1.2
        simp only [okGroupB, okStrB, Bool.and_eq_true, decide_eq_true_eq] at hx
        exact absurd (string_data_inj hseg.1) hx.1.2
    · simp [keySegs] at hseg
    · simp only [okScopeB, Bool.and_eq_true] at h2
      simp [keySegs] at hseg
      cases g₂ with
      | none => exact absurd (string_data_inj hseg.1) (by decide)
      | some x =>
        have hx := h2.2
        simp only [okGroupB, okStrB, Bool.and_eq_true, decide_eq_true_eq] at hx
        exact absurd (string_data_inj hseg.1).symm hx.1.2
    · simp [keySegs] at hseg
      rw [string_data_inj hseg]
    · simp [keySegs] at hseg
    · simp [keySegs] at hseg
    · simp [keySegs] at hseg
    · simp only [okScopeB, Bool.and_eq_true] at h1 h2
      simp [keySegs] at hseg
      obtain ⟨hi, hg, hu⟩ := hseg
      rw [natDecimal_inj i₁ i₂ (string_data_inj hi),
        getD_pc_inj_win g₁ g₂ h1.2 h2.2 hg,
        pyOptStr_inj u₁ u₂ h1.1 h2.1 hu]
  · intro h
    rw [h]

/-- C8 counterexample: over arbitrary opaque identifier strings the claim
fails — the daily counter key of user "123" inside a group literally named
"group" is the very same string as the shared daily counter key of a group
named "123", although the two logical scopes are distinct. -/
theorem C8_key_injective_cx :
    keyOf "2024-01-01" (.userScope "123" (some "group")) =
      keyOf "2024-01-01" (.groupScope "123") ∧
    Scope.userScope "123" (some "group") ≠ Scope.groupScope "123" := by
  constructor
  · decide
  · decide

/-- Witness for C8 (amended): two distinct well-formed scopes receive
distinct keys. -/
theorem C8_key_injective_witness :
    okStrB "2024-01-01" = true ∧
    okScopeB (.userScope "u1" none) = true ∧
    okScopeB (.groupScope "g1") = true ∧
    keyOf "2024-01-01" (.userScope "u1" none) ≠
      keyOf "2024-01-01" (.groupScope "g1") :=
  ⟨by decide, by decide, by decide, fun h =>
    nomatch (C8_key_injective "2024-01-01" (.userScope "u1" none) (.groupScope "g1")
      (by decide) (by decide) (by decide)).mp h⟩

end DailyLimit
